import Mathlib

/-!
Shallow embedding of the stinger-v3 data pipeline
(src/data_pipeline/fetch_rotten_tomatoes_data.py,
 src/data_pipeline/fetch_trailer_link.py,
 src/data_pipeline/fetch_tmdb_data.py).

Strings are modelled as lists of characters; Python regular expressions and
string methods are translated character by character.  The character classes
are the ASCII approximations of the Python unicode classes (the repository
only ever builds URLs and compares ASCII keywords, so this is faithful on
every input the theorems use).
-/

/-- Models the Python word character class of the regex backslash-w,
restricted to ASCII: letters, digits and the underscore. -/
def isWordChar (c : Char) : Bool := c.isAlphanum || c == '_'

/-- str.lower applied characterwise. -/
def toLowerL (l : List Char) : List Char := l.map Char.toLower

/-- str.strip with no argument: remove leading and trailing whitespace. -/
def pyStrip (l : List Char) : List Char :=
  ((l.dropWhile Char.isWhitespace).reverse.dropWhile Char.isWhitespace).reverse

/-- The Python substring test (pat in s). -/
def hasSubstr (pat : List Char) : List Char → Bool
  | [] => pat.isEmpty
  | c :: cs => pat.isPrefixOf (c :: cs) || hasSubstr pat cs

/-- s.split(sep)[0]: the characters before the first occurrence of sep
(the whole string when sep does not occur).  sep is never empty. -/
def takeBefore (pat : List Char) : List Char → List Char
  | [] => []
  | c :: cs => if pat.isPrefixOf (c :: cs) then [] else c :: takeBefore pat cs

/-- Helper for collapsing runs of characters satisfying p into a single
replacement character; the flag records whether we are inside a run. -/
def collapseRunsAux (p : Char → Bool) (rep : Char) : Bool → List Char → List Char
  | _, [] => []
  | inRun, c :: cs =>
    if p c then
      (if inRun then collapseRunsAux p rep true cs
       else rep :: collapseRunsAux p rep true cs)
    else c :: collapseRunsAux p rep false cs

/-- re.sub of one or more whitespace characters by a single underscore. -/
def collapseWs (l : List Char) : List Char :=
  collapseRunsAux (fun c => c.isWhitespace) '_' false l

/-- re.sub of one or more underscores by a single underscore. -/
def collapseUnders (l : List Char) : List Char :=
  collapseRunsAux (fun c => c == '_') '_' false l

/-- str.strip with an underscore argument. -/
def stripUnders (l : List Char) : List Char :=
  ((l.dropWhile (fun c => c == '_')).reverse.dropWhile (fun c => c == '_')).reverse

/-- re.sub removing every character outside the class word, whitespace,
hyphen; this is the pattern used throughout search_movie. -/
def subNonWord (l : List Char) : List Char :=
  l.filter (fun c => isWordChar c || c.isWhitespace || c == '-')

/-- str.replace, fuelled so the recursion is structural: replaces the
non-overlapping occurrences of pat from the left, never rescanning the
replacement text.  The fuel is an upper bound on the number of steps; every
step consumes at least one input character, so the input length suffices. -/
def pyRepF (pat repl : List Char) : Nat → List Char → List Char
  | _, [] => []
  | 0, l => l
  | Nat.succ f, c :: cs =>
    if !pat.isEmpty && pat.isPrefixOf (c :: cs) then
      repl ++ pyRepF pat repl f (cs.drop (pat.length - 1))
    else c :: pyRepF pat repl f cs

/-- str.replace(pat, repl) for a non-empty pat. -/
def pyRep (pat repl l : List Char) : List Char := pyRepF pat repl l.length l

/-- Helper for str.split() with no argument: split on whitespace runs,
dropping empty pieces; cur is the current word reversed. -/
def pySplitAux (cur : List Char) : List Char → List (List Char)
  | [] => if cur.isEmpty then [] else [cur.reverse]
  | c :: cs =>
    if c.isWhitespace then
      (if cur.isEmpty then pySplitAux [] cs else cur.reverse :: pySplitAux [] cs)
    else pySplitAux (c :: cur) cs

/-- str.split() with no argument. -/
def pySplit (l : List Char) : List (List Char) := pySplitAux [] l

/-- A single space joining a list of words. -/
def joinSpace (ws : List (List Char)) : List Char := List.intercalate [' '] ws

/-- Numeric value of an ASCII digit. -/
def digitVal (c : Char) : Nat := c.toNat - 48

/-- Decimal value of a digit string. -/
def digitsToNat (l : List Char) : Nat := l.foldl (fun acc c => acc * 10 + digitVal c) 0

/-- Helper producing the decimal digits of a number, fuelled. -/
def natToCharsAux : Nat → Nat → List Char
  | 0, _ => []
  | Nat.succ f, n =>
    if n < 10 then [Char.ofNat (48 + n)]
    else natToCharsAux f (n / 10) ++ [Char.ofNat (48 + n % 10)]

/-- Decimal rendering of a natural number, as used by the Python f-strings. -/
def natToChars (n : Nat) : List Char := natToCharsAux (n + 1) n

/-- re.search for a digit group: the leftmost maximal run of digits, as a
number; none when the text has no digit. -/
def firstNat? (l : List Char) : Option Nat :=
  match l.dropWhile (fun c => !c.isDigit) with
  | [] => none
  | c :: cs => some (digitsToNat (c :: cs.takeWhile Char.isDigit))

/-- re.search for a digit group followed by a percent sign: the leftmost
maximal digit run immediately followed by the percent character. -/
def firstPercent? : List Char → Option Nat
  | [] => none
  | c :: cs =>
    if c.isDigit then
      (if ((c :: cs).dropWhile Char.isDigit).head? == some '%' then
        some (digitsToNat ((c :: cs).takeWhile Char.isDigit))
      else firstPercent? cs)
    else firstPercent? cs

/-- str.isdigit restricted to ASCII: non-empty and all digits. -/
def pyIsDigit (l : List Char) : Bool := !l.isEmpty && l.all Char.isDigit

/-! ### Candidate URL generation (fetch_rotten_tomatoes_data.py, search_movie, lines 114-245) -/

/-- One match attempt of the episode regex family at the head of l: the
literal word episode, then at least one whitespace character, then the
given suffix, with the next character (if any) outside avoid (the regex
negative lookahead).  Returns the remainder after the match. -/
def epMatch (suffix avoid : List Char) (l : List Char) : Option (List Char) :=
  if ("episode".toList).isPrefixOf l then
    let r1 := l.drop 7
    let r2 := r1.dropWhile Char.isWhitespace
    if r1.length == r2.length then none
    else if suffix.isPrefixOf r2 then
      let rest := r2.drop suffix.length
      match rest.head? with
      | some c => if avoid.contains c then none else some rest
      | none => some rest
    else none
  else none

/-- Fuelled re.sub for the episode patterns: replace every match by repl. -/
def epSubF (suffix avoid repl : List Char) : Nat → List Char → List Char
  | _, [] => []
  | 0, l => l
  | Nat.succ f, c :: cs =>
    match epMatch suffix avoid (c :: cs) with
    | some rest => repl ++ epSubF suffix avoid repl f rest
    | none => c :: epSubF suffix avoid repl f cs

/-- re.sub for the episode patterns (the fuel is the input length, which
bounds the number of steps since each consumes at least one character). -/
def epSub (suffix avoid repl l : List Char) : List Char := epSubF suffix avoid repl l.length l

/-- The elif chain of lines 151-166 building alt_title from the lowered
title.  The substring tests use a single space, the substitutions the
regex whitespace class, exactly as in the source. -/
def episodeAlt (lt : List Char) : List Char :=
  if hasSubstr ("episode iii".toList) lt then
    epSub ("iii".toList) [] ("episode_3".toList) lt
  else if hasSubstr ("episode ii".toList) lt then
    epSub ("ii".toList) [] ("episode_2".toList) lt
  else if hasSubstr ("episode i".toList) lt && !hasSubstr ("episode iv".toList) lt then
    epSub ("i".toList) ['i', 'v', 'x'] ("episode_1".toList) lt
  else if hasSubstr ("episode iv".toList) lt then
    epSub ("iv".toList) [] ("episode_4".toList) lt
  else if hasSubstr ("episode v".toList) lt && !hasSubstr ("episode vi".toList) lt then
    epSub ("v".toList) ['i'] ("episode_5".toList) lt
  else if hasSubstr ("episode vi".toList) lt then
    epSub ("vi".toList) [] ("episode_6".toList) lt
  else lt

/-- Strip one leading article prefix, in the alternation order of the
regex of line 126: the_, a_, an_. -/
def stripArticle (l : List Char) : List Char :=
  if ("the_".toList).isPrefixOf l then l.drop 4
  else if ("a_".toList).isPrefixOf l then l.drop 2
  else if ("an_".toList).isPrefixOf l then l.drop 3
  else l

/-- Lines 122-123: the canonical slug url_title. -/
def urlTitle (title : String) : List Char :=
  collapseWs (toLowerL (pyStrip (subNonWord title.toList)))

/-- Line 126: url_title_no_articles. -/
def urlTitleNoArticles (title : String) : List Char := stripArticle (urlTitle title)

/-- Line 129: url_title_compact. -/
def urlTitleCompact (title : String) : List Char :=
  stripUnders (collapseUnders
    (pyRep ("_an_".toList) ['_']
      (pyRep ("_a_".toList) ['_']
        (pyRep ("_the_".toList) ['_'] (urlTitle title)))))

/-- Line 130: url_title_no_spaces. -/
def urlTitleNoSpaces (title : String) : List Char :=
  (toLowerL title.toList).filter
    (fun c => !(c == ' ' || c == ':' || c == '\'' || c == '-' || c == '.'))

/-- Line 202: the first legacy pattern. -/
def legacyUnderscore (title : String) : List Char :=
  ((toLowerL title.toList).map (fun c => if c == ' ' then '_' else c)).filter
    (fun c => !(c == ':' || c == '\''))

/-- Line 203: the second legacy pattern. -/
def legacyCompact (title : String) : List Char :=
  (toLowerL title.toList).filter (fun c => !(c == ' ' || c == ':' || c == '\''))

/-- The URL stem shared by every candidate. -/
def rtBase : String := "https://www.rottentomatoes.com/m/"

/-- A candidate URL from a character slug. -/
def cand (chars : List Char) : String := rtBase ++ String.mk chars

/-- A candidate URL from a slug plus an underscore and the year. -/
def candYear (chars : List Char) (year : Nat) : String :=
  rtBase ++ String.mk (chars ++ '_' :: natToChars year)

/-- Lines 137-141: the colon special case key. -/
def colonKeyChars (title : String) : List Char :=
  collapseWs (subNonWord (toLowerL (pyStrip (takeBefore [':'] title.toList))))

/-- Lines 144-148: the dash special case key. -/
def dashKeyChars (title : String) : List Char :=
  collapseWs (subNonWord (toLowerL (pyStrip (takeBefore (" - ".toList) title.toList))))

/-- The seen-set de-duplication of lines 239-245 (also the key semantics of
the special_cases dict: first occurrence of a key keeps its position). -/
def codeDedup {α : Type} [DecidableEq α] (seen : List α) : List α → List α
  | [] => []
  | u :: us => if u ∈ seen then codeDedup seen us else u :: codeDedup (u :: seen) us

/-- De-duplication as the spec words it: keep each first occurrence, drop
the later duplicates.  Used to state that the code dedup preserves first
occurrence order. -/
def specDedup {α : Type} [DecidableEq α] : List α → List α
  | [] => []
  | u :: us => u :: specDedup (us.filter (fun v => decide (v ≠ u)))
termination_by l => l.length
decreasing_by
  simp only [List.length_cons]
  exact Nat.lt_succ_of_le (List.length_filter_le _ _)

/-- Lines 133-171: the ordered keys of the special_cases dict. -/
def specialKeys (title : String) : List (List Char) :=
  let lt := toLowerL title.toList
  let k1 := if title.toList.contains ':' then [colonKeyChars title] else []
  let k2 := if hasSubstr (" - ".toList) title.toList then [dashKeyChars title] else []
  let k3 :=
    if hasSubstr ("episode".toList) lt || hasSubstr ("part".toList) lt then
      (if episodeAlt lt ≠ lt then [collapseWs (subNonWord (episodeAlt lt))] else [])
    else []
  codeDedup [] (k1 ++ k2 ++ k3)

/-- Lines 177-181: the special-case candidates, key first then key_year. -/
def specialsBlock (title : String) (year : Nat) : List String :=
  ((specialKeys title).map (fun k => [cand k, candYear k year])).flatten

/-- Lines 184-204: the standard patterns, in source order. -/
def standardBlock (title : String) (year : Nat) : List String :=
  [cand (urlTitleNoArticles title),
   candYear (urlTitleNoArticles title) year,
   cand (urlTitle title),
   candYear (urlTitle title) year,
   cand (urlTitleCompact title),
   candYear (urlTitleCompact title) year,
   cand (urlTitleNoSpaces title),
   cand ((urlTitle title).filter (fun c => !(c == '_'))),
   cand ((urlTitleNoArticles title).filter (fun c => !(c == '_'))),
   cand ((urlTitle title).map (fun c => if c == '_' then '-' else c)),
   cand ((urlTitleNoArticles title).map (fun c => if c == '_' then '-' else c)),
   cand (legacyUnderscore title),
   cand (legacyCompact title)]

/-- Lines 207-225: truncated candidates for longer titles (year form first). -/
def longBlock (title : String) (year : Nat) : List String :=
  let words := pySplit title.toList
  if words.length > 2 then
    let sh := collapseWs (subNonWord (toLowerL (joinSpace (words.take 2))))
    [candYear sh year, cand sh] ++
    (if words.length > 4 then
      (let md := collapseWs (subNonWord (toLowerL (joinSpace (words.take 3))))
       [candYear md year, cand md])
     else [])
  else []

/-- Line 228: the stop word list. -/
def stopWords : List (List Char) :=
  (["the", "a", "an", "of", "and", "or", "but", "in", "on", "at", "to", "for", "with"]).map
    String.toList

/-- Lines 228-237: the stop-word-filtered candidates (year form first). -/
def stopBlock (title : String) (year : Nat) : List String :=
  let words := pySplit title.toList
  let filtered := words.filter (fun w => !stopWords.contains (toLowerL w))
  if filtered.length < words.length then
    (let fu := collapseWs (subNonWord (toLowerL (joinSpace filtered)))
     [candYear fu year, cand fu])
  else []

/-- possible_urls before de-duplication, in source order. -/
def rtRawCandidates (title : String) (year : Nat) : List String :=
  specialsBlock title year ++ standardBlock title year ++ longBlock title year ++
    stopBlock title year

/-- unique_urls of lines 239-245: the de-duplicated candidate sequence. -/
def rtCandidates (title : String) (year : Nat) : List String :=
  codeDedup [] (rtRawCandidates title year)

/-- The plain slug of the spec: punctuation-stripped, lowercased,
underscore-joined title (url_title of line 123), as a string. -/
def rtSlug (title : String) : String := String.mk (urlTitle title)

/-- The article-stripped slug as a string. -/
def rtSlugNoArticles (title : String) : String := String.mk (urlTitleNoArticles title)

/-! ### Score extraction (fetch_rotten_tomatoes_data.py, lines 256-329)

A fetched 200-response body is modelled by the signals each extraction
strategy reads from the parsed document: the text of the rt-text elements
with the criticsScore and audienceScore slots (strategy 1), the attributes
of the score-board element (strategy 2), the string nodes together with
their parent texts (strategy 3, the percent scan), and the texts of the
elements found by the data-qa or class probes (strategy 4). -/

structure ScoreBoard where
  criticsScoreAttr : Option (List Char)
  popcornMeterAttr : Option (List Char)
deriving DecidableEq

structure Doc where
  rtTextCritics : Option (List Char)
  rtTextAudience : Option (List Char)
  scoreBoard : Option ScoreBoard
  percentTexts : List (List Char × List Char)
  tomatoHint : Option (List Char)
  audienceHint : Option (List Char)
deriving DecidableEq

/-- A document with no recognizable markup at all. -/
def emptyDoc : Doc := ⟨none, none, none, [], none, none⟩

/-- soup.find_all with the percent regex: the string nodes containing a
digit run followed by a percent sign. -/
def percentElems (d : Doc) : List (List Char × List Char) :=
  d.percentTexts.filter (fun p => (firstPercent? p.1).isSome)

/-- Line 296: the parent text mentions tomatometer or critics. -/
def isCriticNode (e : List Char × List Char) : Bool :=
  hasSubstr ("tomatometer".toList) (toLowerL e.2) ||
    hasSubstr ("critics".toList) (toLowerL e.2)

/-- Line 300: the parent text mentions audience or popcorn (the elif, so
only consulted when the node is not a critic node). -/
def isAudienceNode (e : List Char × List Char) : Bool :=
  hasSubstr ("audience".toList) (toLowerL e.2) ||
    hasSubstr ("popcorn".toList) (toLowerL e.2)

/-- The loop body of lines 295-303 for one string node, threading the
current (tomatometer, audience) pair: each field is assigned only while it
is still zero. -/
def percentNodeStep (ta : Nat × Nat) (e : List Char × List Char) : Nat × Nat :=
  if isCriticNode e then
    match firstPercent? e.1 with
    | some m => if ta.1 = 0 then (m, ta.2) else ta
    | none => ta
  else if isAudienceNode e then
    match firstPercent? e.1 with
    | some m => if ta.2 = 0 then (ta.1, m) else ta
    | none => ta
  else ta

/-- The whole percent scan loop of lines 294-303. -/
def percentFold (d : Doc) (ta : Nat × Nat) : Nat × Nat :=
  (percentElems d).foldl percentNodeStep ta

/-- Strategy 1 for the critic score (lines 264-269). -/
def strat1C (d : Doc) : Nat :=
  match d.rtTextCritics with
  | some txt => (firstNat? (pyStrip txt)).getD 0
  | none => 0

/-- Strategy 1 for the audience score (lines 271-276). -/
def strat1A (d : Doc) : Nat :=
  match d.rtTextAudience with
  | some txt => (firstNat? (pyStrip txt)).getD 0
  | none => 0

/-- The assignment of lines 283-285 and 287-289: a present all-digit
attribute replaces the current value, anything else keeps it. -/
def sbVal (attr : Option (List Char)) (cur : Nat) : Nat :=
  match attr with
  | some str => if pyIsDigit str then digitsToNat str else cur
  | none => cur

/-- Strategy 2 (score-board block, lines 279-289): entered only when a
field is still zero, each field guarded separately. -/
def scoreBoardStep (d : Doc) (ta : Nat × Nat) : Nat × Nat :=
  if ta.1 = 0 ∨ ta.2 = 0 then
    match d.scoreBoard with
    | some sb =>
      ((if ta.1 = 0 then sbVal sb.criticsScoreAttr ta.1 else ta.1),
       (if ta.2 = 0 then sbVal sb.popcornMeterAttr ta.2 else ta.2))
    | none => ta
  else ta

/-- Strategy 3 (percent scan, lines 292-303): entered only when a field is
still zero. -/
def percentScanStep (d : Doc) (ta : Nat × Nat) : Nat × Nat :=
  if ta.1 = 0 ∨ ta.2 = 0 then percentFold d ta else ta

/-- The assignment of lines 308-312 and 316-320: the first number of the
probed element text, keeping the current value when absent. -/
def hintVal (hint : Option (List Char)) (cur : Nat) : Nat :=
  match hint with
  | some txt => (firstNat? txt).getD cur
  | none => cur

/-- Strategy 4 (data-qa and class probes, lines 305-320): each field
guarded by being still zero. -/
def hintStep (d : Doc) (ta : Nat × Nat) : Nat × Nat :=
  ((if ta.1 = 0 then hintVal d.tomatoHint ta.1 else ta.1),
   (if ta.2 = 0 then hintVal d.audienceHint ta.2 else ta.2))

/-- The full extraction chain of lines 259-320: strategy 1, then the
score-board block, then the percent scan, then the probes, with the exact
guard structure of the source. -/
def extractScores (d : Doc) : Nat × Nat :=
  hintStep d (percentScanStep d (scoreBoardStep d (strat1C d, strat1A d)))

/-- The value strategy 2 would contribute for the critic field. -/
def strat2C (d : Doc) : Nat :=
  match d.scoreBoard with
  | some sb => sbVal sb.criticsScoreAttr 0
  | none => 0

/-- The value strategy 2 would contribute for the audience field. -/
def strat2A (d : Doc) : Nat :=
  match d.scoreBoard with
  | some sb => sbVal sb.popcornMeterAttr 0
  | none => 0

/-- The percent values of the critic-classified string nodes, in order. -/
def criticVals (l : List (List Char × List Char)) : List Nat :=
  l.filterMap (fun e => if isCriticNode e then firstPercent? e.1 else none)

/-- The percent values of the audience-classified string nodes (the elif:
nodes that are not critic nodes), in order. -/
def audVals (l : List (List Char × List Char)) : List Nat :=
  l.filterMap (fun e =>
    if isCriticNode e then none
    else if isAudienceNode e then firstPercent? e.1
    else none)

/-- First non-zero value of a list, zero when there is none. -/
def firstNonzero : List Nat → Nat
  | [] => 0
  | x :: xs => if x = 0 then firstNonzero xs else x

/-- The value strategy 3 would contribute for the critic field: the loop
assigns only while the field is zero, so the first non-zero critic
percent wins. -/
def strat3C (d : Doc) : Nat := firstNonzero (criticVals (percentElems d))

/-- The value strategy 3 would contribute for the audience field. -/
def strat3A (d : Doc) : Nat := firstNonzero (audVals (percentElems d))

/-- The value strategy 4 would contribute for the critic field. -/
def strat4C (d : Doc) : Nat := hintVal d.tomatoHint 0

/-- The value strategy 4 would contribute for the audience field. -/
def strat4A (d : Doc) : Nat := hintVal d.audienceHint 0

/-! ### The fetch loop of search_movie (lines 247-348) -/

/-- The result dict of search_movie. -/
structure RTResult where
  tomatometer : Nat
  audience : Nat
  title : String
  year : Nat
deriving DecidableEq

/-- The all-zero outcome of lines 119, 344 and 348. -/
def zeroRT : RTResult := ⟨0, 0, "", 0⟩

/-- The outcome of one HTTP GET for a candidate URL: a 200 response with a
parsed body, any other status code, or a requests exception. -/
inductive FetchOutcome where
  | ok (body : Doc)
  | httpStatus (code : Nat)
  | netError
deriving DecidableEq

/-- The candidate loop of lines 247-344, instrumented with the list of
URLs actually requested.  A 200 response whose extraction yields a
positive field returns at once; a 200 with no signal, a 403 (sleep and
continue), a 404, any other status (falls off the if chain) and a network
error (except branch) all advance to the next candidate; an exhausted list
returns the all-zero result of line 344. -/
def searchLoopT (fetch : String → FetchOutcome) (title : String) (year : Nat) :
    List String → RTResult × List String
  | [] => (zeroRT, [])
  | u :: us =>
    match fetch u with
    | .ok d =>
      let p := extractScores d
      if p.1 > 0 ∨ p.2 > 0 then (⟨p.1, p.2, title, year⟩, [u])
      else
        (let r := searchLoopT fetch title year us
         (r.1, u :: r.2))
    | _ =>
      (let r := searchLoopT fetch title year us
       (r.1, u :: r.2))

/-- The candidate loop, result only. -/
def searchLoop (fetch : String → FetchOutcome) (title : String) (year : Nat)
    (urls : List String) : RTResult := (searchLoopT fetch title year urls).1

/-- A candidate resolves when its fetch is a 200 whose extraction has a
positive field; this abbreviates the success condition of lines 256-329. -/
def resolves (fetch : String → FetchOutcome) (u : String) : Option (Nat × Nat) :=
  match fetch u with
  | .ok d =>
    let p := extractScores d
    if p.1 > 0 ∨ p.2 > 0 then some p else none
  | _ => none

/-- status_forcelist of the session retry strategy (lines 38-43). -/
def retryStatusForcelist : List Nat := [403, 429, 500, 502, 503, 504]

/-- total of the session retry strategy (line 39). -/
def retryTotal : Nat := 3

/-- Transport-level retries performed by the mounted HTTPAdapter for a
response status: the urllib3 Retry object retries only the statuses on its
forcelist, so any other status gets zero retries. -/
def adapterRetriesFor (code : Nat) : Nat :=
  if code ∈ retryStatusForcelist then retryTotal else 0

/-- search_movie (lines 114-348), instrumented with the requested URLs:
the denylist guard of lines 118-119, then the candidate loop over the
de-duplicated candidates. -/
def searchMovieT (fetch : String → FetchOutcome) (title : String) (year : Nat) :
    RTResult × List String :=
  if title.toList.contains '#' || title.toList.contains '@' then (zeroRT, [])
  else searchLoopT fetch title year (rtCandidates title year)

/-! ### Record processing (fetch_rotten_tomatoes_data.py lines 65-88 and
350-371, fetch_trailer_link.py lines 220-244) -/

/-- A catalog record, with the fields the enrichment paths read or write. -/
structure Movie where
  title : String
  releaseYear : Nat
  releaseDate : String
  rtTomatometer : Nat
  rtAudience : Nat
  trailerYoutube : String
deriving DecidableEq

/-- The loop body of process_movie_batch (lines 68-82), instrumented with
whether search_movie was invoked: for a truthy title and year the ratings
are written only when a score is positive; otherwise the record passes
through unchanged. -/
def rtProcessMovieT (search : String → Nat → RTResult) (m : Movie) : Movie × Bool :=
  if m.title ≠ "" ∧ m.releaseYear ≠ 0 then
    (let rt := search m.title m.releaseYear
     if rt.tomatometer > 0 ∨ rt.audience > 0 then
       ({ m with rtTomatometer := rt.tomatometer, rtAudience := rt.audience }, true)
     else (m, true))
  else (m, false)

/-- The loop body of process_movie_batch, record only. -/
def rtProcessMovie (search : String → Nat → RTResult) (m : Movie) : Movie :=
  (rtProcessMovieT search m).1

/-- search_movie_parallel (lines 350-371): for a truthy title and year the
two ratings fields are overwritten unconditionally with whatever the
search returned, even when it returned the all-zero result. -/
def searchMovieParallel (search : String → Nat → RTResult) (m : Movie) : Movie :=
  if m.title ≠ "" ∧ m.releaseYear ≠ 0 then
    (let rt := search m.title m.releaseYear
     { m with rtTomatometer := rt.tomatometer, rtAudience := rt.audience })
  else m

/-! ### Python int() and the year extraction (fetch_tmdb_data.py lines 260-267) -/

/-- Helper consuming digits with single interior underscores, as the
Python integer literal grammar of int() allows. -/
def pyIntDigitsAux : Nat → List Char → Option Nat
  | acc, [] => some acc
  | acc, c :: cs =>
    if c.isDigit then pyIntDigitsAux (acc * 10 + digitVal c) cs
    else if c == '_' then
      (match cs with
       | [] => none
       | c2 :: cs2 =>
         if c2.isDigit then pyIntDigitsAux (acc * 10 + digitVal c2) cs2 else none)
    else none

/-- The digit part of int(): non-empty, starts with a digit, single
underscores only between digits. -/
def pyIntDigits : List Char → Option Nat
  | [] => none
  | c :: cs => if c.isDigit then pyIntDigitsAux (digitVal c) cs else none

/-- int(s) for a base-10 string (ASCII model): surrounding whitespace is
stripped, one optional sign, then digits; none models the ValueError. -/
def pyParseInt (l : List Char) : Option Int :=
  match pyStrip l with
  | [] => none
  | c :: rest =>
    if c == '+' then (pyIntDigits rest).map (fun n => (n : Int))
    else if c == '-' then (pyIntDigits rest).map (fun n => -(n : Int))
    else (pyIntDigits (c :: rest)).map (fun n => (n : Int))

/-- date_string.split(the hyphen)[0]. -/
def firstDashSegment (l : List Char) : List Char := l.takeWhile (fun c => c ≠ '-')

/-- _extract_year (lines 260-267): empty string gives 0, otherwise int()
of the first hyphen-separated segment, with ValueError giving 0. -/
def extractYear (s : String) : Int :=
  if s = "" then 0
  else
    match pyParseInt (firstDashSegment s.toList) with
    | some n => n
    | none => 0

/-! ### Trailer search (fetch_trailer_link.py lines 68-218) -/

/-- re.search for a digit run, optional whitespace, then the word second
(the duration pattern of _is_short_video). -/
def secondsMatch : List Char → Option Nat
  | [] => none
  | c :: cs =>
    if c.isDigit then
      (let rest := (((c :: cs).dropWhile Char.isDigit).dropWhile Char.isWhitespace)
       if ("second".toList).isPrefixOf rest then
         some (digitsToNat ((c :: cs).takeWhile Char.isDigit))
       else secondsMatch cs)
    else secondsMatch cs

/-- _is_short_video (lines 68-88): anything mentioning minutes is not
short; otherwise short means a parsed seconds value under 30. -/
def isShortVideo (durationText : List Char) : Bool :=
  let dl := toLowerL durationText
  if hasSubstr ("minute".toList) dl then false
  else
    match secondsMatch dl with
    | some n => decide (n < 30)
    | none => false

/-- re.search for a parenthesized number: an opening parenthesis, a
non-empty digit run, a closing parenthesis (line 197). -/
def hasParenNum : List Char → Bool
  | [] => false
  | c :: rest =>
    (c == '(' && !(rest.takeWhile Char.isDigit).isEmpty &&
      (rest.dropWhile Char.isDigit).head? == some ')') || hasParenNum rest

/-- One extracted search result: video URL, raw title text, and the
duration accessibility label (empty when absent). -/
structure Video where
  url : List Char
  title : List Char
  duration : List Char
deriving DecidableEq

/-- trailer_keywords of line 150. -/
def trailerKeywords : List (List Char) :=
  (["trailer", "official", "teaser", "preview"]).map String.toList

/-- official_keywords of line 151 (includes the lowered movie title). -/
def officialKeywordsOf (mtl : List Char) : List (List Char) :=
  [("official".toList), ("studio".toList), mtl]

/-- bad_keywords of lines 152-158. -/
def badKeywords : List (List Char) :=
  (["ad", "advertisement", "commercial", "review", "reaction",
    "breakdown", "explained", "interview", "behind the scenes",
    "making of", "bloopers", "deleted scene", "clip", "scene",
    "tv spot", "promo", "featurette", "comparison", "vs",
    "easter egg", "theory", "analysis", "ending explained"]).map String.toList

/-- How many keywords of the list occur in the title (each keyword loop
adds its bonus once per keyword present). -/
def countSubs (kws : List (List Char)) (t : List Char) : Nat :=
  (kws.filter (fun k => hasSubstr k t)).length

/-- The scoring of lines 162-207 for the result at position i.  The video
titles are stored lowercased at extraction time (lines 128, 145), modelled
by lowering here. -/
def scoreVideo (movieTitle : List Char) (i : Nat) (v : Video) : Int :=
  let t := toLowerL v.title
  let mtl := toLowerL movieTitle
  (if hasSubstr mtl t then (15 : Int) else 0)
  + 10 * (countSubs (officialKeywordsOf mtl) t : Int)
  + 8 * (countSubs trailerKeywords t : Int)
  - 25 * (countSubs badKeywords t : Int)
  + (if (pySplit t).length > 8 then (-5 : Int) else 0)
  + ((15 : Int) - (i : Int))
  + (if hasSubstr ("official trailer".toList) t then (20 : Int) else 0)
  + (if hasParenNum t then (-10 : Int) else 0)
  + (if !v.duration.isEmpty && isShortVideo v.duration then (-30 : Int) else 0)

/-- scored_videos of line 207: each result paired with its score. -/
def scoredVideos (movieTitle : List Char) (vids : List Video) : List (Int × Video) :=
  vids.enum.map (fun p => (scoreVideo movieTitle p.1 p.2, p.2))

/-- Insert into an already descending list, after every element of equal
or higher score: this is what a stable descending sort does with an
element arriving later in the original order. -/
def insertDesc : List (Int × Video) → Int × Video → List (Int × Video)
  | [], x => [x]
  | y :: ys, x => if x.1 > y.1 then x :: y :: ys else y :: insertDesc ys x

/-- list.sort(key=score, reverse=True) of line 210: a stable descending
sort, realized as left-to-right insertion. -/
def stableSortDesc (l : List (Int × Video)) : List (Int × Video) :=
  l.foldl insertDesc []

/-- Lines 209-214: sort by descending score and return the best URL when
its score exceeds 5, otherwise none. -/
def rankVideos (movieTitle : List Char) (vids : List Video) : Option (List Char) :=
  match stableSortDesc (scoredVideos movieTitle vids) with
  | [] => none
  | (s, v) :: _ => if s > 5 then some v.url else none

/-- The maximum with earliest-position tie break, folded from an optional
current best: a later element replaces the best only with a strictly
greater score. -/
def specMaxFrom (b : Option (Int × Video)) : List (Int × Video) → Option (Int × Video)
  | [] => b
  | x :: xs =>
    specMaxFrom
      (match b with
       | none => some x
       | some m => if x.1 > m.1 then some x else some m) xs

/-- Modelled from the words of the spec: return the highest-scoring
candidate if its score exceeds the fixed threshold 5, else none, with
ties broken by the original order. -/
def specSelect (movieTitle : List Char) (vids : List Video) : Option (List Char) :=
  match specMaxFrom none (scoredVideos movieTitle vids) with
  | none => none
  | some (s, v) => if s > 5 then some v.url else none

/-- The loop body of the trailer process_movie_batch (lines 220-244),
instrumented with whether search_trailer was invoked.  The year is the
first four characters of release_date when that is non-empty; int() of it
may raise, which the except branch of the loop absorbs, appending the
record unchanged. -/
def trailerProcessMovieT (searchT : String → Int → Option String) (m : Movie) :
    Movie × Bool :=
  let year := if m.releaseDate ≠ "" then String.mk (m.releaseDate.toList.take 4) else ""
  if m.title ≠ "" ∧ year ≠ "" then
    match pyParseInt year.toList with
    | none => (m, false)
    | some n =>
      match searchT m.title n with
      | some url => ({ m with trailerYoutube := url }, true)
      | none => (m, true)
  else (m, false)

/-- The trailer loop body, record only. -/
def trailerProcessMovie (searchT : String → Int → Option String) (m : Movie) : Movie :=
  (trailerProcessMovieT searchT m).1

/-! ### The shared rate limiter (fetch_rotten_tomatoes_data.py lines 57-63,
fetch_trailer_link.py lines 54-60)

_rate_limit reads the clock and the shared last_request_time, sleeps for
the remainder of the minimum interval, then stamps the new time and the
caller issues its request.  Nothing synchronizes the read and the stamp,
so two workers may interleave between them.  The model below is a small
interleaving semantics over a logical clock: reading takes a snapshot of
(clock, last_request_time); stamping is allowed once the clock has
advanced past the snapshot time plus the computed sleep, and it records
the permitted call.  Combining the two reads of lines 59-60 into one
atomic snapshot, and the stamp of line 63 with the subsequent request,
only makes races rarer, so a race exhibited here is present in the code. -/

structure RaceState where
  clock : Nat
  last : Nat
  snap1 : Option (Nat × Nat)
  snap2 : Option (Nat × Nat)
  calls : List Nat
deriving DecidableEq

inductive RaceAct where
  | advance (d : Nat)
  | readAct (w : Bool)
  | stampCall (w : Bool)
deriving DecidableEq

/-- The sleep duration computed at line 61-62 from a snapshot: the
remainder of the minimum interval T, zero when enough time has elapsed. -/
def waitFor (T c l : Nat) : Nat := if c - l < T then T - (c - l) else 0

/-- One step of the interleaving semantics. -/
def raceStep (T : Nat) (s : RaceState) : RaceAct → Option RaceState
  | .advance d => some { s with clock := s.clock + d }
  | .readAct w =>
    some (if w then { s with snap1 := some (s.clock, s.last) }
          else { s with snap2 := some (s.clock, s.last) })
  | .stampCall w =>
    match (if w then s.snap1 else s.snap2) with
    | none => none
    | some (c, l) =>
      if s.clock ≥ c + waitFor T c l then
        some (if w then
                { s with last := s.clock, calls := s.calls ++ [s.clock], snap1 := none }
              else
                { s with last := s.clock, calls := s.calls ++ [s.clock], snap2 := none })
      else none

/-- Run a list of actions. -/
def raceRun (T : Nat) (s : RaceState) : List RaceAct → Option RaceState
  | [] => some s
  | a :: rest =>
    match raceStep T s a with
    | none => none
    | some s2 => raceRun T s2 rest

/-- The initial state: last_request_time = 0 from the constructor, an
arbitrary starting clock, no pending snapshots, no calls yet. -/
def raceInit (c0 : Nat) : RaceState := ⟨c0, 0, none, none, []⟩

/-- The permitted calls, in chronological order, are spaced at least T
apart. -/
def callsSpaced (T : Nat) : List Nat → Bool
  | [] => true
  | [_] => true
  | a :: b :: rest => decide (a + T ≤ b) && callsSpaced T (b :: rest)

/-- A serialized execution: each worker performs its whole read, sleep,
stamp sequence before the next one begins (one block per call; the block
records which worker runs and how far the clock advances before its
stamp). -/
def serRun (T : Nat) (s : RaceState) : List (Bool × Nat) → Option RaceState
  | [] => some s
  | (w, d) :: rest =>
    match raceRun T s [.readAct w, .advance d, .stampCall w] with
    | none => none
    | some s2 => serRun T s2 rest

/-! ### Helper lemmas on the de-duplication -/

theorem mem_codeDedup {α : Type} [DecidableEq α] (seen l : List α) (x : α) :
    x ∈ codeDedup seen l ↔ x ∈ l ∧ x ∉ seen := by
  induction l generalizing seen with
  | nil => simp [codeDedup]
  | cons u us ih =>
    by_cases hu : u ∈ seen
    · simp only [codeDedup, if_pos hu, ih, List.mem_cons]
      constructor
      · rintro ⟨h1, h2⟩
        exact ⟨Or.inr h1, h2⟩
      · rintro ⟨h1 | h1, h2⟩
        · exact absurd (h1 ▸ hu) h2
        · exact ⟨h1, h2⟩
    · simp only [codeDedup, if_neg hu, List.mem_cons, ih]
      constructor
      · rintro (rfl | ⟨h1, h2⟩)
        · exact ⟨Or.inl rfl, hu⟩
        · exact ⟨Or.inr h1, fun hx => h2 (Or.inr hx)⟩
      · rintro ⟨rfl | h1, h2⟩
        · exact Or.inl rfl
        · by_cases hxu : x = u
          · exact Or.inl hxu
          · exact Or.inr ⟨h1, by simp [List.mem_cons, hxu, h2]⟩

theorem nodup_codeDedup {α : Type} [DecidableEq α] (seen l : List α) :
    (codeDedup seen l).Nodup := by
  induction l generalizing seen with
  | nil => simp [codeDedup]
  | cons u us ih =>
    by_cases hu : u ∈ seen
    · simpa [codeDedup, if_pos hu] using ih seen
    · simp only [codeDedup, if_neg hu, List.nodup_cons]
      exact ⟨fun hc => ((mem_codeDedup _ _ _).1 hc).2 (List.mem_cons_self u _), ih (u :: seen)⟩

theorem filter_cons_seen {α : Type} [DecidableEq α] (us : List α) (u : α) (seen : List α) :
    us.filter (fun v => decide (v ∉ u :: seen)) =
      (us.filter (fun v => decide (v ∉ seen))).filter (fun v => decide (v ≠ u)) := by
  rw [List.filter_filter]
  apply List.filter_congr
  intro a _
  by_cases h1 : a = u <;> by_cases h2 : a ∈ seen <;> simp [List.mem_cons, h1, h2]

theorem codeDedup_eq_specDedup {α : Type} [DecidableEq α] (seen l : List α) :
    codeDedup seen l = specDedup (l.filter (fun v => decide (v ∉ seen))) := by
  induction l generalizing seen with
  | nil => simp [codeDedup, specDedup]
  | cons u us ih =>
    by_cases hu : u ∈ seen
    · have h : decide (u ∉ seen) = false := by simp [hu]
      simp only [codeDedup, if_pos hu, List.filter_cons, h]
      simpa using ih seen
    · have h : decide (u ∉ seen) = true := by simp [hu]
      simp only [codeDedup, if_neg hu, List.filter_cons, h]
      simp only [if_true]
      rw [specDedup, ih (u :: seen), filter_cons_seen]

theorem codeDedup_nil_cons {α : Type} [DecidableEq α] (u : α) (us : List α) :
    codeDedup [] (u :: us) = u :: codeDedup [u] us := by
  simp [codeDedup]

theorem rtCandidates_eq_specDedup (title : String) (year : Nat) :
    rtCandidates title year = specDedup (rtRawCandidates title year) := by
  have hfilter : (rtRawCandidates title year).filter
      (fun v => decide (v ∉ ([] : List String))) = rtRawCandidates title year := by
    apply List.filter_eq_self.mpr
    intro a _
    simp
  have h := codeDedup_eq_specDedup ([] : List String) (rtRawCandidates title year)
  rw [hfilter] at h
  exact h

theorem plainSlug_mem_raw (title : String) (year : Nat) :
    (rtBase ++ rtSlug title) ∈ rtRawCandidates title year := by
  have hstd : (rtBase ++ rtSlug title) ∈ standardBlock title year := by
    unfold standardBlock
    exact List.mem_cons_of_mem _ (List.mem_cons_of_mem _ (List.mem_cons_self _ _))
  unfold rtRawCandidates
  simp [List.mem_append, hstd]

theorem specialKeys_nil (title : String)
    (h1 : title.toList.contains ':' = false)
    (h2 : hasSubstr (" - ".toList) title.toList = false)
    (h3 : hasSubstr ("episode".toList) (toLowerL title.toList) = false)
    (h4 : hasSubstr ("part".toList) (toLowerL title.toList) = false) :
    specialKeys title = [] := by
  simp only [specialKeys, h1, h2, h3, h4]
  simp [codeDedup]

theorem rtCandidates_head (title : String) (year : Nat)
    (h1 : title.toList.contains ':' = false)
    (h2 : hasSubstr (" - ".toList) title.toList = false)
    (h3 : hasSubstr ("episode".toList) (toLowerL title.toList) = false)
    (h4 : hasSubstr ("part".toList) (toLowerL title.toList) = false) :
    (rtCandidates title year).head? = some (rtBase ++ rtSlugNoArticles title) := by
  have hs : specialsBlock title year = [] := by
    simp [specialsBlock, specialKeys_nil title h1 h2 h3 h4]
  unfold rtCandidates rtRawCandidates
  rw [hs]
  simp only [List.nil_append, standardBlock, List.cons_append]
  rw [codeDedup_nil_cons]
  rfl

/-- C2, corrected claim.  For every (title, year) with non-empty title,
candidate generation is a pure function (hence deterministic) whose result
is non-empty, duplicate-free, and equal to the first-occurrence
de-duplication of the raw pattern list; the plain slug is always among the
candidates, but the first element is the article-stripped slug whenever no
special-case (colon, dash, episode or part) candidates precede the
standard block, and it is the plain slug exactly when the slug carries no
leading article. -/
theorem c2_candidate_generation (title : String) (year : Nat) (_htitle : title ≠ "") :
    rtCandidates title year ≠ [] ∧
    (rtCandidates title year).Nodup ∧
    rtCandidates title year = specDedup (rtRawCandidates title year) ∧
    (rtBase ++ rtSlug title) ∈ rtCandidates title year ∧
    (title.toList.contains ':' = false →
     hasSubstr (" - ".toList) title.toList = false →
     hasSubstr ("episode".toList) (toLowerL title.toList) = false →
     hasSubstr ("part".toList) (toLowerL title.toList) = false →
     ((rtCandidates title year).head? = some (rtBase ++ rtSlugNoArticles title) ∧
      (rtSlugNoArticles title = rtSlug title →
       (rtCandidates title year).head? = some (rtBase ++ rtSlug title)))) := by
  have hmem : (rtBase ++ rtSlug title) ∈ rtCandidates title year :=
    (mem_codeDedup [] (rtRawCandidates title year) _).2
      ⟨plainSlug_mem_raw title year, by simp⟩
  refine ⟨List.ne_nil_of_mem hmem, nodup_codeDedup _ _,
    rtCandidates_eq_specDedup title year, hmem, ?_⟩
  intro h1 h2 h3 h4
  have hhead := rtCandidates_head title year h1 h2 h3 h4
  exact ⟨hhead, fun heq => by rw [hhead, heq]⟩

/-- C2, counterexample to the claim as stated: for the title The Matrix
the plain slug is the_matrix, but the first generated candidate is the
article-stripped matrix, not the plain slug. -/
theorem c2_counterexample :
    rtSlug ("The Matrix") = "the_matrix" ∧
    (rtCandidates ("The Matrix") 1999).head? = some (rtBase ++ "matrix") ∧
    (rtCandidates ("The Matrix") 1999).head? ≠ some (rtBase ++ rtSlug ("The Matrix")) := by
  decide

/-- Witness for c2_candidate_generation at a concrete input, with every
hypothesis discharged. -/
theorem c2_witness :
    rtCandidates ("Foo") 2020 ≠ [] ∧
    (rtCandidates ("Foo") 2020).Nodup ∧
    rtCandidates ("Foo") 2020 = specDedup (rtRawCandidates ("Foo") 2020) ∧
    (rtBase ++ rtSlug ("Foo")) ∈ rtCandidates ("Foo") 2020 ∧
    (rtCandidates ("Foo") 2020).head? = some (rtBase ++ rtSlug ("Foo")) := by
  have h := c2_candidate_generation ("Foo") 2020 (by decide)
  exact ⟨h.1, h.2.1, h.2.2.1, h.2.2.2.1,
    (h.2.2.2.2 (by decide) (by decide) (by decide) (by decide)).2 (by decide)⟩

/-- C3, counterexample to the claim as stated: for (The Matrix, 1999) both
the article-present form the_matrix and the stripped form matrix are
generated, but the article-present form is tried strictly later, not no
later, than the stripped form. -/
theorem c3_counterexample :
    (rtBase ++ "the_matrix") ∈ rtCandidates ("The Matrix") 1999 ∧
    (rtBase ++ "matrix") ∈ rtCandidates ("The Matrix") 1999 ∧
    ¬((rtCandidates ("The Matrix") 1999).indexOf (rtBase ++ "the_matrix") ≤
      (rtCandidates ("The Matrix") 1999).indexOf (rtBase ++ "matrix")) := by
  decide

/-- C3, corrected claim: both forms are generated, and the article-stripped
form is ranked no worse (tried no later) than the article-present form. -/
theorem c3_amended_order :
    (rtBase ++ "the_matrix") ∈ rtCandidates ("The Matrix") 1999 ∧
    (rtBase ++ "matrix") ∈ rtCandidates ("The Matrix") 1999 ∧
    (rtCandidates ("The Matrix") 1999).indexOf (rtBase ++ "matrix") ≤
      (rtCandidates ("The Matrix") 1999).indexOf (rtBase ++ "the_matrix") := by
  decide

/-! ### C1: enrichment fields are never downgraded -/

/-- An already fully enriched record. -/
def enrichedMovie : Movie := ⟨"Foo", 1999, "1999-01-01", 85, 90, "u"⟩

/-- A resolution that always yields the no-signal result. -/
def zeroSearch : String → Nat → RTResult := fun _ _ => zeroRT

/-- A trailer resolution that always yields no result. -/
def noneTrailerSearch : String → Int → Option String := fun _ _ => none

/-- C1, counterexample to the claim as stated: search_movie_parallel
overwrites the ratings fields unconditionally, so running it over an
already-enriched record with a no-signal resolution downgrades the
populated tomatometer field from 85 to 0. -/
theorem c1_counterexample :
    enrichedMovie.rtTomatometer = 85 ∧
    (searchMovieParallel zeroSearch enrichedMovie).rtTomatometer = 0 ∧
    searchMovieParallel zeroSearch enrichedMovie ≠ enrichedMovie := by
  decide

/-- C1, corrected claim: the batch path actually driven by the pipeline
(process_movie_batch in both fetchers) upgrades only: with a resolution
that yields no signal, every previously-populated ratings and media field
is left unchanged.  Only the unused search_movie_parallel helper
overwrites unconditionally. -/
theorem c1_no_downgrade (m : Movie) (search : String → Nat → RTResult)
    (searchT : String → Int → Option String)
    (hs : ∀ t y, (search t y).tomatometer = 0 ∧ (search t y).audience = 0)
    (ht : ∀ t y, searchT t y = none) :
    rtProcessMovie search m = m ∧ trailerProcessMovie searchT m = m := by
  constructor
  · unfold rtProcessMovie rtProcessMovieT
    by_cases hg : m.title ≠ "" ∧ m.releaseYear ≠ 0
    · rw [if_pos hg]
      have h1 := (hs m.title m.releaseYear).1
      have h2 := (hs m.title m.releaseYear).2
      simp [h1, h2]
    · rw [if_neg hg]
  · unfold trailerProcessMovie trailerProcessMovieT
    by_cases hg : m.title ≠ "" ∧
        (if m.releaseDate ≠ "" then String.mk (m.releaseDate.toList.take 4) else "") ≠ "" 
    · rw [if_pos hg]
      cases hp : pyParseInt
          (if m.releaseDate ≠ "" then String.mk (m.releaseDate.toList.take 4) else "").toList with
      | none => rfl
      | some n => simp [ht m.title n]
    · rw [if_neg hg]

/-- Witness for c1_no_downgrade at a concrete enriched record. -/
theorem c1_witness :
    rtProcessMovie zeroSearch enrichedMovie = enrichedMovie ∧
    trailerProcessMovie noneTrailerSearch enrichedMovie = enrichedMovie :=
  c1_no_downgrade enrichedMovie zeroSearch noneTrailerSearch
    (fun _ _ => ⟨rfl, rfl⟩) (fun _ _ => rfl)

/-! ### C9: skipping records with empty title or unknown year -/

/-- A record whose year is unknown (0) but whose release_date still
carries four leading characters parsing to 0. -/
def year0Movie : Movie := ⟨"Foo", 0, "0000-06-01", 0, 0, ""⟩

/-- C9, counterexample to the claim as stated: the trailer path derives
the year from release_date, not from the release year field, so this
record with unknown year 0 is not skipped: search_trailer is invoked
(with year 0), contradicting that no fetch is attempted. -/
theorem c9_counterexample :
    year0Movie.releaseYear = 0 ∧ year0Movie.title ≠ "" ∧
    (trailerProcessMovieT noneTrailerSearch year0Movie).2 = true := by
  decide

/-- C9, corrected claim: the ratings path skips a record entirely (no
search, record unchanged) when the title is empty or the release year is
0; the trailer path skips when the title is empty or the release date is
empty.  A record whose release date parses to year 0 is still searched by
the trailer path. -/
theorem c9_skip_guards (search : String → Nat → RTResult)
    (searchT : String → Int → Option String) (m : Movie) :
    ((m.title = "" ∨ m.releaseYear = 0) → rtProcessMovieT search m = (m, false)) ∧
    ((m.title = "" ∨ m.releaseDate = "") → trailerProcessMovieT searchT m = (m, false)) := by
  constructor
  · intro h
    unfold rtProcessMovieT
    have : ¬(m.title ≠ "" ∧ m.releaseYear ≠ 0) := by
      rcases h with h | h
      · exact fun hc => hc.1 h
      · exact fun hc => hc.2 h
    rw [if_neg this]
  · intro h
    unfold trailerProcessMovieT
    rcases h with h | h
    · have : ¬(m.title ≠ "" ∧
          (if m.releaseDate ≠ "" then String.mk (m.releaseDate.toList.take 4) else "") ≠ "") :=
        fun hc => hc.1 h
      rw [if_neg this]
    · have hy : (if m.releaseDate ≠ "" then String.mk (m.releaseDate.toList.take 4) else "")
          = "" := by rw [if_neg (by simp [h])]
      have : ¬(m.title ≠ "" ∧
          (if m.releaseDate ≠ "" then String.mk (m.releaseDate.toList.take 4) else "") ≠ "") :=
        fun hc => hc.2 hy
      rw [if_neg this]

/-- Witness for c9_skip_guards at a concrete empty-title record, with the
hypotheses discharged. -/
theorem c9_witness :
    rtProcessMovieT zeroSearch ⟨"", 2020, "", 0, 0, ""⟩ =
      (⟨"", 2020, "", 0, 0, ""⟩, false) ∧
    trailerProcessMovieT noneTrailerSearch ⟨"", 2020, "", 0, 0, ""⟩ =
      (⟨"", 2020, "", 0, 0, ""⟩, false) :=
  ⟨(c9_skip_guards zeroSearch noneTrailerSearch ⟨"", 2020, "", 0, 0, ""⟩).1 (Or.inl rfl),
   (c9_skip_guards zeroSearch noneTrailerSearch ⟨"", 2020, "", 0, 0, ""⟩).2 (Or.inl rfl)⟩

/-! ### C10: year extraction is total -/

theorem dropWhile_of_all_false {p : Char → Bool} (l : List Char)
    (h : ∀ c ∈ l, p c = false) : l.dropWhile p = l := by
  cases l with
  | nil => rfl
  | cons c cs =>
    rw [List.dropWhile_cons, h c (List.mem_cons_self _ _)]
    simp

theorem isDigit_not_ws (c : Char) (h : c.isDigit = true) : c.isWhitespace = false := by
  cases hw : c.isWhitespace
  · rfl
  · exfalso
    have hcases : ((c = ' ' ∨ c = '\t') ∨ c = '\x0d') ∨ c = '\n' := by
      simpa [Char.isWhitespace] using hw
    rcases hcases with ((rfl | rfl) | rfl) | rfl <;> exact absurd h (by decide)

theorem pyStrip_digits (l : List Char) (h : ∀ c ∈ l, c.isDigit = true) :
    pyStrip l = l := by
  have hw : ∀ c ∈ l, c.isWhitespace = false := fun c hc => isDigit_not_ws c (h c hc)
  unfold pyStrip
  rw [dropWhile_of_all_false l hw]
  rw [dropWhile_of_all_false l.reverse (fun c hc => hw c (List.mem_reverse.1 hc))]
  exact List.reverse_reverse l

theorem pyIntDigitsAux_digits (l : List Char) (acc : Nat)
    (h : ∀ c ∈ l, c.isDigit = true) :
    pyIntDigitsAux acc l = some (l.foldl (fun a c => a * 10 + digitVal c) acc) := by
  induction l generalizing acc with
  | nil => rfl
  | cons c cs ih =>
    have hc : c.isDigit = true := h c (List.mem_cons_self _ _)
    unfold pyIntDigitsAux
    rw [if_pos hc]
    rw [ih (acc * 10 + digitVal c) (fun x hx => h x (List.mem_cons_of_mem c hx))]
    rfl

theorem pyParseInt_digits (l : List Char) (hne : l ≠ [])
    (h : ∀ c ∈ l, c.isDigit = true) :
    pyParseInt l = some ((digitsToNat l : Nat) : Int) := by
  have hstrip : pyStrip l = l := pyStrip_digits l h
  cases l with
  | nil => exact absurd rfl hne
  | cons c rest =>
    have hc : c.isDigit = true := h c (List.mem_cons_self _ _)
    have hplus : (c == '+') = false := by
      cases hq : c == '+'
      · rfl
      · exfalso
        have : c = '+' := by exact beq_iff_eq.1 hq
        rw [this] at hc
        exact absurd hc (by decide)
    have hminus : (c == '-') = false := by
      cases hq : c == '-'
      · rfl
      · exfalso
        have : c = '-' := by exact beq_iff_eq.1 hq
        rw [this] at hc
        exact absurd hc (by decide)
    have hdig : pyIntDigits (c :: rest) = some (digitsToNat (c :: rest)) := by
      simp only [pyIntDigits, if_pos hc]
      rw [pyIntDigitsAux_digits rest (digitVal c)
        (fun x hx => h x (List.mem_cons_of_mem c hx))]
      have : digitsToNat (c :: rest) =
          rest.foldl (fun a x => a * 10 + digitVal x) (digitVal c) := by
        unfold digitsToNat
        rw [List.foldl_cons]
        norm_num
      rw [this]
    unfold pyParseInt
    rw [hstrip]
    simp [hplus, hminus, hdig]

/-- C10: _extract_year is total (a Lean function by construction, so it
never raises): the empty string yields 0; any string whose first
hyphen-separated segment does not parse as a Python integer yields 0; any
string whose first segment is a non-empty run of decimal digits yields
that number. -/
theorem c10_extract_year :
    extractYear ("") = 0 ∧
    (∀ s : String, pyParseInt (firstDashSegment s.toList) = none → extractYear s = 0) ∧
    (∀ (s : String) (ds : List Char), ds ≠ [] → (∀ c ∈ ds, c.isDigit = true) →
      firstDashSegment s.toList = ds → extractYear s = ((digitsToNat ds : Nat) : Int)) := by
  refine ⟨rfl, ?_, ?_⟩
  · intro s hp
    unfold extractYear
    by_cases hs : s = ""
    · rw [if_pos hs]
    · rw [if_neg hs, hp]
  · intro s ds hne hd hseg
    have hs : s ≠ "" := by
      intro hc
      rw [hc] at hseg
      exact hne (hseg.symm ▸ rfl)
    unfold extractYear
    rw [if_neg hs, hseg, pyParseInt_digits ds hne hd]

/-- Witness for c10_extract_year: the example date of the claim. -/
theorem c10_witness : extractYear ("1999-03-31") = 1999 ∧ extractYear ("") = 0 := by
  have h := c10_extract_year
  constructor
  · have h3 := h.2.2 ("1999-03-31") ['1', '9', '9', '9'] (by decide) (by decide) (by decide)
    rw [h3]
    decide
  · exact h.1

/-! ### C4: the candidate loop returns first success or the zero result -/

theorem searchLoop_skip (fetch : String → FetchOutcome) (title : String) (year : Nat)
    (u : String) (us : List String) (h : resolves fetch u = none) :
    searchLoopT fetch title year (u :: us) =
      ((searchLoopT fetch title year us).1, u :: (searchLoopT fetch title year us).2) := by
  unfold resolves at h
  cases hf : fetch u with
  | ok d =>
    rw [hf] at h
    simp only at h
    have hsig : ¬((extractScores d).1 > 0 ∨ (extractScores d).2 > 0) := by
      intro hc
      rw [if_pos hc] at h
      exact Option.noConfusion h
    simp only [searchLoopT, hf, if_neg hsig]
  | httpStatus code => simp only [searchLoopT, hf]
  | netError => simp only [searchLoopT, hf]

theorem searchLoop_hit (fetch : String → FetchOutcome) (title : String) (year : Nat)
    (u : String) (us : List String) (t a : Nat) (h : resolves fetch u = some (t, a)) :
    searchLoopT fetch title year (u :: us) = (⟨t, a, title, year⟩, [u]) := by
  unfold resolves at h
  cases hf : fetch u with
  | ok d =>
    rw [hf] at h
    simp only at h
    by_cases hsig : (extractScores d).1 > 0 ∨ (extractScores d).2 > 0
    · rw [if_pos hsig] at h
      have hpair := Option.some.inj h
      have ht : (extractScores d).1 = t := congrArg Prod.fst hpair
      have ha : (extractScores d).2 = a := congrArg Prod.snd hpair
      simp only [searchLoopT, hf]
      rw [if_pos hsig, ht, ha]
    · rw [if_neg hsig] at h
      exact Option.noConfusion h
  | httpStatus code =>
    rw [hf] at h
    exact Option.noConfusion h
  | netError =>
    rw [hf] at h
    exact Option.noConfusion h

theorem searchLoop_exhaust (fetch : String → FetchOutcome) (title : String) (year : Nat)
    (urls : List String) (h : ∀ u ∈ urls, resolves fetch u = none) :
    searchLoopT fetch title year urls = (zeroRT, urls) := by
  induction urls with
  | nil => rfl
  | cons u us ih =>
    rw [searchLoop_skip fetch title year u us (h u (List.mem_cons_self _ _))]
    rw [ih (fun v hv => h v (List.mem_cons_of_mem u hv))]

/-- C4: resolving one record is total (the loop is a Lean function, so
nothing propagates past it): when no candidate resolves, the loop returns
the all-zero outcome of line 344; and it returns on the first candidate
whose successful fetch extracts a non-zero field, echoing the extracted
scores with the title and year. -/
theorem c4_first_success_or_zero (fetch : String → FetchOutcome) (title : String)
    (year : Nat) :
    (∀ urls : List String, (∀ u ∈ urls, resolves fetch u = none) →
      searchLoop fetch title year urls = zeroRT) ∧
    (∀ (pre : List String) (u : String) (post : List String) (t a : Nat),
      (∀ v ∈ pre, resolves fetch v = none) → resolves fetch u = some (t, a) →
      searchLoop fetch title year (pre ++ u :: post) = ⟨t, a, title, year⟩) := by
  constructor
  · intro urls h
    unfold searchLoop
    rw [searchLoop_exhaust fetch title year urls h]
  · intro pre u post t a hpre hu
    induction pre with
    | nil =>
      unfold searchLoop
      rw [List.nil_append, searchLoop_hit fetch title year u post t a hu]
    | cons v vs ih =>
      unfold searchLoop at ih ⊢
      rw [List.cons_append,
        searchLoop_skip fetch title year v (vs ++ u :: post)
          (hpre v (List.mem_cons_self _ _))]
      exact ih (fun w hw => hpre w (List.mem_cons_of_mem v hw))

/-- A successful response body carrying an 85 percent critic score in the
primary markup. -/
def doc85 : Doc := ⟨some ("85%".toList), none, none, [], none, none⟩

/-- A fetch oracle answering 404 everywhere except one good URL. -/
def fetchDemo : String → FetchOutcome :=
  fun u => if u == "good" then .ok doc85 else .httpStatus 404

/-- Witness for c4_first_success_or_zero: a loop that skips one 404
candidate and returns on the next, and an all-404 loop returning zero. -/
theorem c4_witness :
    searchLoop fetchDemo ("T") 2000 (["x"] ++ "good" :: []) = ⟨85, 0, "T", 2000⟩ ∧
    searchLoop fetchDemo ("T") 2000 ["bad1", "bad2"] = zeroRT :=
  ⟨(c4_first_success_or_zero fetchDemo ("T") 2000).2 ["x"] ("good") [] 85 0
      (by decide) (by decide),
   (c4_first_success_or_zero fetchDemo ("T") 2000).1 ["bad1", "bad2"] (by decide)⟩

/-! ### C5: all-404 exhausts every candidate exactly once, no retries -/

/-- C5: when every candidate URL answers 404, search_movie returns the
zero result after requesting exactly the de-duplicated candidate list, in
order; that list has no duplicates, so each generated candidate is
requested exactly once; and the transport retry policy performs zero
retries on a 404 (it is not on the status forcelist). -/
theorem c5_all_404_each_once (title : String) (year : Nat) (fetch : String → FetchOutcome)
    (hno : title.toList.contains '#' = false ∧ title.toList.contains '@' = false)
    (h404 : ∀ u, fetch u = .httpStatus 404) :
    searchMovieT fetch title year = (zeroRT, rtCandidates title year) ∧
    (rtCandidates title year).Nodup ∧
    (∀ u ∈ rtCandidates title year, (rtCandidates title year).count u = 1) ∧
    adapterRetriesFor 404 = 0 := by
  have hres : ∀ u ∈ rtCandidates title year, resolves fetch u = none := by
    intro u _
    unfold resolves
    rw [h404 u]
  refine ⟨?_, nodup_codeDedup _ _, ?_, by decide⟩
  · unfold searchMovieT
    rw [hno.1, hno.2]
    simp only [Bool.or_false, Bool.false_eq_true, if_false]
    exact searchLoop_exhaust fetch title year _ hres
  · intro u hu
    exact List.count_eq_one_of_mem (nodup_codeDedup _ _) hu

/-- A fetch layer that always answers 404. -/
def f404 : String → FetchOutcome := fun _ => .httpStatus 404

/-- Witness for c5_all_404_each_once at a concrete title. -/
theorem c5_witness :
    searchMovieT f404 ("Foo") 1999 = (zeroRT, rtCandidates ("Foo") 1999) ∧
    (rtCandidates ("Foo") 1999).Nodup ∧
    (∀ u ∈ rtCandidates ("Foo") 1999, (rtCandidates ("Foo") 1999).count u = 1) ∧
    adapterRetriesFor 404 = 0 :=
  c5_all_404_each_once ("Foo") 1999 f404 (by decide) (fun _ => rfl)

/-! ### C7: strategies win per field independently -/

theorem percentNodeFold_eq (l : List (List Char × List Char)) (x y : Nat) :
    l.foldl percentNodeStep (x, y) =
      ((if x = 0 then firstNonzero (criticVals l) else x),
       (if y = 0 then firstNonzero (audVals l) else y)) := by
  induction l generalizing x y with
  | nil =>
    by_cases hx : x = 0 <;> by_cases hy : y = 0 <;>
      simp [criticVals, audVals, firstNonzero, hx, hy]
  | cons e es ih =>
    rw [List.foldl_cons]
    by_cases hc : isCriticNode e
    · cases hm : firstPercent? e.1 with
      | some m =>
        have hcrit : criticVals (e :: es) = m :: criticVals es := by
          simp [criticVals, List.filterMap_cons, hc, hm]
        have haud : audVals (e :: es) = audVals es := by
          simp [audVals, List.filterMap_cons, hc]
        by_cases hx : x = 0
        · have hstep : percentNodeStep (x, y) e = (m, y) := by
            simp [percentNodeStep, hc, hm, hx]
          rw [hstep, ih, hcrit, haud, hx]
          simp [firstNonzero]
        · have hstep : percentNodeStep (x, y) e = (x, y) := by
            simp [percentNodeStep, hc, hm, hx]
          rw [hstep, ih, hcrit, haud]
          simp [hx]
      | none =>
        have hcrit : criticVals (e :: es) = criticVals es := by
          simp [criticVals, List.filterMap_cons, hc, hm]
        have haud : audVals (e :: es) = audVals es := by
          simp [audVals, List.filterMap_cons, hc]
        have hstep : percentNodeStep (x, y) e = (x, y) := by
          simp [percentNodeStep, hc, hm]
        rw [hstep, ih, hcrit, haud]
    · by_cases ha : isAudienceNode e
      · cases hm : firstPercent? e.1 with
        | some m =>
          have hcrit : criticVals (e :: es) = criticVals es := by
            simp [criticVals, List.filterMap_cons, hc]
          have haud : audVals (e :: es) = m :: audVals es := by
            simp [audVals, List.filterMap_cons, hc, ha, hm]
          by_cases hy : y = 0
          · have hstep : percentNodeStep (x, y) e = (x, m) := by
              simp [percentNodeStep, hc, ha, hm, hy]
            rw [hstep, ih, hcrit, haud, hy]
            simp [firstNonzero]
          · have hstep : percentNodeStep (x, y) e = (x, y) := by
              simp [percentNodeStep, hc, ha, hm, hy]
            rw [hstep, ih, hcrit, haud]
            simp [hy]
        | none =>
          have hcrit : criticVals (e :: es) = criticVals es := by
            simp [criticVals, List.filterMap_cons, hc]
          have haud : audVals (e :: es) = audVals es := by
            simp [audVals, List.filterMap_cons, hc, ha, hm]
          have hstep : percentNodeStep (x, y) e = (x, y) := by
            simp [percentNodeStep, hc, ha, hm]
          rw [hstep, ih, hcrit, haud]
      · have hcrit : criticVals (e :: es) = criticVals es := by
          simp [criticVals, List.filterMap_cons, hc]
        have haud : audVals (e :: es) = audVals es := by
          simp [audVals, List.filterMap_cons, hc, ha]
        have hstep : percentNodeStep (x, y) e = (x, y) := by
          simp [percentNodeStep, hc, ha]
        rw [hstep, ih, hcrit, haud]

theorem scoreBoardStep_eq (d : Doc) (x y : Nat) :
    scoreBoardStep d (x, y) =
      ((if x = 0 then strat2C d else x), (if y = 0 then strat2A d else y)) := by
  by_cases hx : x = 0 <;> by_cases hy : y = 0 <;>
    cases hsb : d.scoreBoard <;>
      simp [scoreBoardStep, strat2C, strat2A, hx, hy, hsb]

theorem percentScanStep_eq (d : Doc) (x y : Nat) :
    percentScanStep d (x, y) =
      ((if x = 0 then strat3C d else x), (if y = 0 then strat3A d else y)) := by
  by_cases hx : x = 0
  · rw [percentScanStep, if_pos (Or.inl hx), percentFold, percentNodeFold_eq]
    rfl
  · by_cases hy : y = 0
    · rw [percentScanStep, if_pos (Or.inr hy), percentFold, percentNodeFold_eq]
      rfl
    · rw [percentScanStep, if_neg (by tauto)]
      simp [hx, hy]

theorem hintStep_eq (d : Doc) (x y : Nat) :
    hintStep d (x, y) =
      ((if x = 0 then strat4C d else x), (if y = 0 then strat4A d else y)) := by
  by_cases hx : x = 0 <;> by_cases hy : y = 0 <;>
    simp [hintStep, strat4C, strat4A, hx, hy]

/-- C7: extraction wins per field independently.  For each field the
result is the value of the first strategy (in the fixed priority order)
yielding a non-zero value for that field, the two fields being computed
from independent strategy chains; and a document with no recognizable
markup extracts to the all-zero result (and extraction is a total Lean
function, so it never raises). -/
theorem c7_per_field_chain :
    (∀ d : Doc, extractScores d =
      (firstNonzero [strat1C d, strat2C d, strat3C d, strat4C d],
       firstNonzero [strat1A d, strat2A d, strat3A d, strat4A d])) ∧
    extractScores emptyDoc = (0, 0) := by
  constructor
  · intro d
    unfold extractScores
    rw [scoreBoardStep_eq, percentScanStep_eq, hintStep_eq]
    by_cases h1 : strat1C d = 0 <;> by_cases h2 : strat2C d = 0 <;>
      by_cases h3 : strat3C d = 0 <;> by_cases h4 : strat4C d = 0 <;>
        by_cases g1 : strat1A d = 0 <;> by_cases g2 : strat2A d = 0 <;>
          by_cases g3 : strat3A d = 0 <;> by_cases g4 : strat4A d = 0 <;>
            simp [firstNonzero, h1, h2, h3, h4, g1, g2, g3, g4]
  · rfl

/-! ### C8: the trailer ranker returns the thresholded stable maximum -/

theorem stableSortDesc_head_aux (l : List (Int × Video)) (acc : List (Int × Video)) :
    (l.foldl insertDesc acc).head? = specMaxFrom acc.head? l := by
  induction l generalizing acc with
  | nil => rfl
  | cons x xs ih =>
    rw [List.foldl_cons, ih (insertDesc acc x)]
    have hh : (insertDesc acc x).head? =
        (match acc.head? with
         | none => some x
         | some m => if x.1 > m.1 then some x else some m) := by
      cases acc with
      | nil => rfl
      | cons y ys => by_cases h : x.1 > y.1 <;> simp [insertDesc, h]
    rw [hh]
    rfl

theorem stableSortDesc_head (l : List (Int × Video)) :
    (stableSortDesc l).head? = specMaxFrom none l :=
  stableSortDesc_head_aux l []

/-- C8: the code path of search_trailer (score, stable descending sort,
threshold of strictly more than 5) returns exactly what the spec words
describe: the highest-scoring candidate when its score exceeds 5, with
ties between equal scores broken in favour of the earlier original search
result, and none otherwise.  specMaxFrom replaces the running best only on
a strictly greater score, which is precisely the earliest-maximum rule. -/
theorem c8_ranker_matches_spec (movieTitle : List Char) (vids : List Video) :
    rankVideos movieTitle vids = specSelect movieTitle vids := by
  unfold rankVideos specSelect
  have h := stableSortDesc_head (scoredVideos movieTitle vids)
  cases hs : stableSortDesc (scoredVideos movieTitle vids) with
  | nil =>
    rw [hs] at h
    rw [← h]
    rfl
  | cons hd tl =>
    rw [hs] at h
    rw [← h]
    obtain ⟨sc, v⟩ := hd
    rfl

/-! ### C6: the shared rate limiter -/

theorem callsSpaced_concat (T : Nat) (l : List Nat) (c : Nat) :
    ∀ x : Nat, callsSpaced T l = true → l.getLast? = some x → x + T ≤ c →
    callsSpaced T (l ++ [c]) = true := by
  induction l with
  | nil =>
    intro x _ hx _
    exact Option.noConfusion hx
  | cons a rest ih =>
    intro x hsp hx hxc
    cases rest with
    | nil =>
      have hax : x = a := by
        simp [List.getLast?] at hx
        exact hx.symm
      subst hax
      simp [callsSpaced, hxc]
    | cons b rest2 =>
      have hsp2 : (a + T ≤ b) ∧ callsSpaced T (b :: rest2) = true := by
        simpa [callsSpaced] using hsp
      have hx2 : (b :: rest2).getLast? = some x := by
        simpa [List.getLast?_cons_cons] using hx
      have hrec : callsSpaced T ((b :: rest2) ++ [c]) = true := ih x hsp2.2 hx2 hxc
      simp only [List.cons_append] at hrec ⊢
      rw [callsSpaced]
      simp [hsp2.1, hrec]

theorem serRun_spaced_aux (T : Nat) (blocks : List (Bool × Nat)) :
    ∀ s s2 : RaceState, s.last ≤ s.clock → callsSpaced T s.calls = true →
    (s.calls = [] ∨ s.calls.getLast? = some s.last) →
    serRun T s blocks = some s2 → callsSpaced T s2.calls = true := by
  induction blocks with
  | nil =>
    intro s s2 _ hsp _ hrun
    have hs : s = s2 := by simpa [serRun] using hrun
    rw [← hs]
    exact hsp
  | cons b rest ih =>
    intro s s2 hlast hsp hend hrun
    obtain ⟨w, d⟩ := b
    by_cases hcond : s.clock + d ≥ s.clock + waitFor T s.clock s.last
    · have hblock : raceRun T s [.readAct w, .advance d, .stampCall w] =
          some { s with clock := s.clock + d, last := s.clock + d,
                        calls := s.calls ++ [s.clock + d],
                        snap1 := if w then none else s.snap1,
                        snap2 := if w then s.snap2 else none } := by
        cases w <;> simp [raceRun, raceStep, hcond]
      rw [serRun] at hrun
      rw [hblock] at hrun
      simp only at hrun
      have hc : s.last + T ≤ s.clock + d := by
        unfold waitFor at hcond
        split at hcond <;> omega
      apply ih _ s2 (Nat.le_refl _) ?_ ?_ hrun
      · rcases hend with hnil | hlastq
        · rw [hnil]
          simp [callsSpaced]
        · exact callsSpaced_concat T s.calls (s.clock + d) s.last hsp hlastq hc
      · right
        exact List.getLast?_concat _
    · exfalso
      have hblock : raceRun T s [.readAct w, .advance d, .stampCall w] = none := by
        cases w <;> simp [raceRun, raceStep, hcond]
      rw [serRun] at hrun
      rw [hblock] at hrun
      exact Option.noConfusion hrun

/-- C6, counterexample to the claim as stated: the per-worker protocol
(measure elapsed, sleep the remainder, stamp) is exactly what the code
does, but nothing synchronizes the read and the stamp, so two workers can
both read the stale last-call time and then issue permitted calls only 1
time unit apart under a minimum interval of 10: the cross-worker spacing
guarantee is false for the unsynchronized code. -/
theorem c6_counterexample :
    ¬ (∀ (acts : List RaceAct) (s2 : RaceState),
        raceRun 10 (raceInit 100) acts = some s2 → callsSpaced 10 s2.calls = true) := by
  intro hall
  have h := hall [.readAct true, .readAct false, .stampCall true, .advance 1, .stampCall false]
    ⟨101, 101, none, none, [100, 101]⟩ (by decide)
  exact absurd h (by decide)

/-- C6, corrected claim: each worker measures the elapsed time since the
last permitted call, sleeps for the remainder of the minimum interval T,
then stamps; when the read-sleep-stamp sections are serialized (each
completes before the next begins, as a lock would enforce), every pair of
consecutive permitted calls is at least T apart.  Without that
serialization the property fails (see the counterexample). -/
theorem c6_serialized_spacing (T c0 : Nat) (blocks : List (Bool × Nat)) (s2 : RaceState)
    (h : serRun T (raceInit c0) blocks = some s2) :
    callsSpaced T s2.calls = true :=
  serRun_spaced_aux T blocks (raceInit c0) s2 (Nat.zero_le _) rfl (Or.inl rfl) h

/-- Witness for c6_serialized_spacing: two serialized workers under
interval 10 produce calls at times 10 and 20, spaced by 10. -/
theorem c6_witness :
    callsSpaced 10 (⟨20, 20, none, none, [10, 20]⟩ : RaceState).calls = true :=
  c6_serialized_spacing 10 0 [(true, 10), (false, 10)] ⟨20, 20, none, none, [10, 20]⟩
    (by decide)
